import Mathlib

/-!
Verification of the character-controller core of `ryyanwang/joanne_val`.

The source is a Three.js first/third-person controller.  We shallowly embed
its simulation core over `ℝ`:

* `Vec3` mirrors `THREE.Vector3` (componentwise arithmetic over `ℝ`).
* `Geometry` abstracts the Spatial Query Service: a pure oracle taking a ray
  (origin, direction) and returning the nearest surface hit (point, distance)
  or none, as `raycaster.intersectObjects` does with unbounded `far`.
  `castRay` applies the `raycaster.far` bound: the nearest hit is kept only
  when its distance is within `far` (three.js discards farther intersections,
  so bounding the nearest hit is equivalent to taking the nearest bounded hit).
* `Surface`/`surfs` build concrete geometries out of infinite axis-aligned
  planes (double-sided), used for concrete scenarios: a ray hits plane
  `x = a` at parameter `t = (a - o.x)/d.x` when `t > 0`; every call site of
  the raycaster passes a unit direction, so `t` is the hit distance.
* The player state, input state and each stage of `updatePlayer` are
  translated line by line from the source (`checkCollision`, `checkGround`,
  movement/jump/gravity/integration, the `y < -10` safety net), as are
  `findStartPosition`, `updateCamera` and the mousemove look handler.

Numeric configuration constants (`CONFIG` in the source): moveSpeed 2.5,
jumpForce 12, gravity 40, cameraDistance 3, cameraHeight 2,
cameraSensitivity 0.002, characterHeight 1.0, collisionRadius 0.3.
-/

/-- Componentwise 3-vector over `ℝ`, mirroring `THREE.Vector3`. -/
structure Vec3 where
  x : ℝ
  y : ℝ
  z : ℝ

namespace Vec3

instance : Add Vec3 := ⟨fun a b => ⟨a.x + b.x, a.y + b.y, a.z + b.z⟩⟩

instance : Sub Vec3 := ⟨fun a b => ⟨a.x - b.x, a.y - b.y, a.z - b.z⟩⟩

instance : SMul ℝ Vec3 := ⟨fun c a => ⟨c * a.x, c * a.y, c * a.z⟩⟩

instance : Zero Vec3 := ⟨⟨0, 0, 0⟩⟩

/-- `THREE.Vector3.lengthSq`. -/
def lengthSq (a : Vec3) : ℝ := a.x * a.x + a.y * a.y + a.z * a.z

/-- `THREE.Vector3.length`. -/
noncomputable def length (a : Vec3) : ℝ := Real.sqrt a.lengthSq

/-- `THREE.Vector3.normalize` (divide by the length). -/
noncomputable def normalize (a : Vec3) : Vec3 := (1 / a.length) • a

/-- `THREE.Vector3.distanceTo`. -/
noncomputable def distanceTo (a b : Vec3) : ℝ := (b - a).length

/-- `THREE.Vector3.applyAxisAngle` for the axis `(0,1,0)`: rotation by
`θ` about the world-up axis, as used to turn input into facing-relative
movement. -/
noncomputable def rotateY (θ : ℝ) (a : Vec3) : Vec3 :=
  ⟨a.x * Real.cos θ + a.z * Real.sin θ, a.y,
   -(a.x * Real.sin θ) + a.z * Real.cos θ⟩

end Vec3

/-- A raycast hit: the intersection point and its distance from the ray
origin (three.js returns intersections sorted by distance; we keep only
the nearest). -/
structure Hit where
  point : Vec3
  dist : ℝ

/-- The Spatial Query Service: for a ray (origin, unit direction) the
nearest intersection with the static collision geometry, or `none`.
This is the behaviour of `raycaster.intersectObjects(collisionObjects, true)`
with the default unbounded `far`. -/
def Geometry : Type := Vec3 → Vec3 → Option Hit

/-- A bounded raycast: `raycaster.far := far` keeps only intersections with
distance at most `far`; restricting the nearest unbounded hit is equivalent. -/
noncomputable def castRay (g : Geometry) (o d : Vec3) (far : ℝ) : Option Hit :=
  match g o d with
  | some h => if h.dist ≤ far then some h else none
  | none => none

/-- An infinite, double-sided axis-aligned plane (`x = a`, `y = a` or
`z = a`): concrete collision geometry for scenarios. -/
inductive Surface where
  | px : ℝ → Surface
  | py : ℝ → Surface
  | pz : ℝ → Surface

namespace Surface

/-- Ray/plane intersection.  For plane `x = a` and a ray with unit
direction `d`, the hit parameter is `t = (a - o.x) / d.x`, valid when the
ray is not parallel to the plane and `t > 0`; `t` is then the distance. -/
noncomputable def rayHit : Surface → Vec3 → Vec3 → Option Hit
  | px a, o, d =>
      if d.x = 0 then none else
        if 0 < (a - o.x) / d.x then some ⟨o + ((a - o.x) / d.x) • d, (a - o.x) / d.x⟩
        else none
  | py a, o, d =>
      if d.y = 0 then none else
        if 0 < (a - o.y) / d.y then some ⟨o + ((a - o.y) / d.y) • d, (a - o.y) / d.y⟩
        else none
  | pz a, o, d =>
      if d.z = 0 then none else
        if 0 < (a - o.z) / d.z then some ⟨o + ((a - o.z) / d.z) • d, (a - o.z) / d.z⟩
        else none

end Surface

/-- Keep the nearer of two optional hits. -/
noncomputable def nearer : Option Hit → Option Hit → Option Hit
  | some h₁, some h₂ => if h₁.dist ≤ h₂.dist then some h₁ else some h₂
  | some h₁, none => some h₁
  | none, b => b

/-- The nearest hit of a ray against a list of surfaces. -/
noncomputable def nearestHit (L : List Surface) (o d : Vec3) : Option Hit :=
  L.foldr (fun s acc => nearer (s.rayHit o d) acc) none

/-- The geometry consisting of the listed surfaces. -/
noncomputable def surfs (L : List Surface) : Geometry := nearestHit L

/-- The geometry with no collidable meshes: every ray misses. -/
def emptyGeom : Geometry := fun _ _ => none

/-- The mutable player record of the source (`player`), minus the camera.
`rotation` is the yaw, `pitch` the vertical look angle.  `hasJumped` is
declared in the source but never read or written afterwards; it is carried
along untouched. -/
structure Player where
  position : Vec3
  velocity : Vec3
  rotation : ℝ
  pitch : ℝ
  isGrounded : Bool
  isMoving : Bool
  hasJumped : Bool

/-- The initial player state of the source. -/
def initialPlayer : Player :=
  ⟨⟨0, 0, 0⟩, ⟨0, 0, 0⟩, 0, 0, true, false, false⟩

/-- The input key state (`keys` in the source). -/
structure Keys where
  forward : Bool
  backward : Bool
  left : Bool
  right : Bool
  jump : Bool

/-- The all-released key state. -/
def noKeys : Keys := ⟨false, false, false, false, false⟩

/-- The key state with only the jump key held. -/
def jumpKeys : Keys := ⟨false, false, false, false, true⟩

/-- The mousemove handler: yaw is decremented by `dx * cameraSensitivity`,
pitch is incremented by `dy * cameraSensitivity` and then clamped to
`[-π/3, π/3]` via `Math.max(-π/3, Math.min(π/3, pitch))`. -/
noncomputable def mouseMove (dx dy : ℝ) (p : Player) : Player :=
  { p with
    rotation := p.rotation - dx * 0.002,
    pitch := max (-(Real.pi / 3)) (min (Real.pi / 3) (p.pitch + dy * 0.002)) }

/-- `findStartPosition`: downward rays (unbounded `far`) from
`(0,5,0)`, `(0,2,0)`, `(0,0,0)`, `(0,-5,0)` in order, taking the first
hit's point raised by `0.1`; failing those, one upward ray from
`(0,-50,0)`; failing that, the origin. -/
noncomputable def findStartPosition (g : Geometry) : Vec3 :=
  match g ⟨0, 5, 0⟩ ⟨0, -1, 0⟩ with
  | some h => ⟨h.point.x, h.point.y + 0.1, h.point.z⟩
  | none =>
    match g ⟨0, 2, 0⟩ ⟨0, -1, 0⟩ with
    | some h => ⟨h.point.x, h.point.y + 0.1, h.point.z⟩
    | none =>
      match g ⟨0, 0, 0⟩ ⟨0, -1, 0⟩ with
      | some h => ⟨h.point.x, h.point.y + 0.1, h.point.z⟩
      | none =>
        match g ⟨0, -5, 0⟩ ⟨0, -1, 0⟩ with
        | some h => ⟨h.point.x, h.point.y + 0.1, h.point.z⟩
        | none =>
          match g ⟨0, -50, 0⟩ ⟨0, 1, 0⟩ with
          | some h => ⟨h.point.x, h.point.y + 0.1, h.point.z⟩
          | none => ⟨0, 0, 0⟩

/-- One probe of `checkCollision`: cast from the current (partially
corrected) position raised by `characterHeight / 2 = 0.5` along `dir`
with `far = collisionRadius = 0.3`; on a hit, add the pushback
`dir * -(0.3 - hitDistance)`. -/
noncomputable def probe (g : Geometry) (p : Vec3) (dir : Vec3) : Vec3 :=
  match castRay g ⟨p.x, p.y + 0.5, p.z⟩ dir 0.3 with
  | some h => p + (-(0.3 - h.dist)) • dir
  | none => p

/-- The probe directions of `checkCollision`, in loop order. -/
def probeDirs : List Vec3 := [⟨1, 0, 0⟩, ⟨-1, 0, 0⟩, ⟨0, 0, 1⟩, ⟨0, 0, -1⟩]

/-- `checkCollision(newPosition)`: the four cardinal probes applied in
order, each one mutating `newPosition` before the next probe is cast. -/
noncomputable def checkCollision (g : Geometry) (p : Vec3) : Vec3 :=
  probeDirs.foldl (probe g) p

/-- The collision resolver as the specification words it: all four probe
rays cast from the *tentative* position, the four pushbacks computed
independently from it and summed.  Stated for comparison with
`checkCollision`, which re-probes from the partially corrected position. -/
noncomputable def checkCollisionSpec (g : Geometry) (p : Vec3) : Vec3 :=
  p + (probeDirs.map (fun dir =>
        match castRay g ⟨p.x, p.y + 0.5, p.z⟩ dir 0.3 with
        | some h => (-(0.3 - h.dist)) • dir
        | none => (0 : Vec3))).foldl (· + ·) 0

/-- `checkGround()`: a downward ray from `0.5` above the position with
`far = 1.0`.  On a hit with `position.y - groundY ≤ 0.15` and
`velocity.y ≤ 0`, snap: `position.y := groundY + 0.01`,
`velocity.y := 0`, `isGrounded := true` (early return).  Otherwise
`isGrounded := false` exactly when `velocity.y > 0` or there was no hit. -/
noncomputable def checkGround (g : Geometry) (p : Player) : Player :=
  match castRay g ⟨p.position.x, p.position.y + 0.5, p.position.z⟩ ⟨0, -1, 0⟩ 1.0 with
  | some h =>
      if p.position.y - h.point.y ≤ 0.15 ∧ p.velocity.y ≤ 0 then
        { p with
          position := ⟨p.position.x, h.point.y + 0.01, p.position.z⟩,
          velocity := ⟨p.velocity.x, 0, p.velocity.z⟩,
          isGrounded := true }
      else if 0 < p.velocity.y then { p with isGrounded := false } else p
  | none => { p with isGrounded := false }

/-- The movement-direction vector built from the four directional keys
(`moveDirection`): forward is `-z`, backward `+z`, left `-x`, right `+x`. -/
def buildDirection (k : Keys) : Vec3 :=
  ⟨(if k.left then -1 else 0) + (if k.right then 1 else 0), 0,
   (if k.forward then -1 else 0) + (if k.backward then 1 else 0)⟩

/-- The movement stage of `updatePlayer`: set `isMoving` from
`moveDirection.lengthSq() > 0`; if moving, normalize the direction,
rotate it by the yaw and set the horizontal velocity to
`direction * moveSpeed` with `moveSpeed = 2.5`; otherwise damp the
horizontal velocity by `0.9`. -/
noncomputable def applyMovement (k : Keys) (p : Player) : Player :=
  let d := buildDirection k
  if 0 < d.lengthSq then
    let m := Vec3.rotateY p.rotation d.normalize
    { p with
      isMoving := true,
      velocity := ⟨m.x * 2.5, p.velocity.y, m.z * 2.5⟩ }
  else
    { p with
      isMoving := false,
      velocity := ⟨p.velocity.x * 0.9, p.velocity.y, p.velocity.z * 0.9⟩ }

/-- The jump stage of `updatePlayer`: if the jump key is down and the
player is grounded, set `velocity.y := jumpForce = 12`, clear
`isGrounded` and reset `keys.jump` immediately. -/
def applyJump (k : Keys) (p : Player) : Keys × Player :=
  if k.jump && p.isGrounded then
    ({ k with jump := false },
     { p with velocity := ⟨p.velocity.x, 12, p.velocity.z⟩, isGrounded := false })
  else (k, p)

/-- The gravity stage of `updatePlayer`: if not grounded,
`velocity.y -= gravity * delta` with `gravity = 40`. -/
noncomputable def applyGravity (p : Player) (delta : ℝ) : Player :=
  if p.isGrounded then p
  else { p with velocity := ⟨p.velocity.x, p.velocity.y - 40 * delta, p.velocity.z⟩ }

/-- The integration stage of `updatePlayer`: the tentative new position,
`position + velocity * delta` componentwise. -/
noncomputable def integrate (p : Player) (delta : ℝ) : Vec3 :=
  ⟨p.position.x + p.velocity.x * delta,
   p.position.y + p.velocity.y * delta,
   p.position.z + p.velocity.z * delta⟩

/-- The `y < -10` safety net at the end of `updatePlayer`: reset the
position to `(0,5,0)` and the velocity to zero. -/
noncomputable def safetyNet (p : Player) : Player :=
  if p.position.y < -10 then
    { p with position := ⟨0, 5, 0⟩, velocity := ⟨0, 0, 0⟩ }
  else p

/-- `updatePlayer(delta)` up to (and excluding) the safety net:
movement, jump, gravity, integration, collision correction, ground check. -/
noncomputable def preSafety (g : Geometry) (k : Keys) (p : Player) (delta : ℝ) :
    Keys × Player :=
  let p1 := applyMovement k p
  let kp := applyJump k p1
  let p2 := applyGravity kp.2 delta
  let p3 := { p2 with position := checkCollision g (integrate p2 delta) }
  (kp.1, checkGround g p3)

/-- The full `updatePlayer(delta)` step, returning the updated key state
(the jump key may have been consumed) and player state. -/
noncomputable def updatePlayer (g : Geometry) (k : Keys) (p : Player) (delta : ℝ) :
    Keys × Player :=
  let r := preSafety g k p delta
  (r.1, safetyNet r.2)

/-- The camera pose computed by `updateCamera`. -/
structure CameraPose where
  position : Vec3
  lookTarget : Vec3

/-- The desired camera position of `updateCamera`: the player position
plus the trigonometric offset
`(sin(yaw) * 3, 2 + sin(pitch) * 3, cos(yaw) * 3)`. -/
noncomputable def camDesired (p : Player) : Vec3 :=
  p.position +
    ⟨Real.sin p.rotation * 3, 2 + Real.sin p.pitch * 3, Real.cos p.rotation * 3⟩

/-- The player-head point of `updateCamera`: the player position raised by
`characterHeight = 1`. -/
noncomputable def camHead (p : Player) : Vec3 :=
  ⟨p.position.x, p.position.y + 1, p.position.z⟩

/-- The normalized line-of-sight direction from the head to the desired
camera position. -/
noncomputable def camDir (p : Player) : Vec3 :=
  (camDesired p - camHead p).normalize

/-- The distance from the head to the desired camera position. -/
noncomputable def camDist (p : Player) : ℝ :=
  (camHead p).distanceTo (camDesired p)

/-- `updateCamera()`: a line-of-sight ray from the head toward the desired
position, bounded by their distance.  On a hit,
`safeDistance := hitDistance - 0.2`; the camera goes to
`head + direction * safeDistance` when `safeDistance > 0.5` and to the head
otherwise; with no hit it goes to the desired position.  The camera always
looks at the head point. -/
noncomputable def updateCamera (g : Geometry) (p : Player) : CameraPose :=
  let camPos :=
    match castRay g (camHead p) (camDir p) (camDist p) with
    | some h =>
        if 0.5 < h.dist - 0.2 then camHead p + (h.dist - 0.2) • camDir p
        else camHead p
    | none => camDesired p
  ⟨camPos, ⟨p.position.x, p.position.y + 1, p.position.z⟩⟩

/-- The no-input deceleration step: the movement stage with no keys held
(`velocity.x *= 0.9; velocity.z *= 0.9`). -/
noncomputable def decelStep (p : Player) : Player := applyMovement noKeys p

/-- The player's horizontal speed, the magnitude the damping-convergence
property speaks about. -/
noncomputable def hSpeed (p : Player) : ℝ :=
  Real.sqrt (p.velocity.x * p.velocity.x + p.velocity.z * p.velocity.z)

/-- Scenario geometry: a single horizontal floor plane at height `0`. -/
noncomputable def floorGeom : Geometry := surfs [Surface.py 0]

/-- Scenario geometry: two horizontal floor surfaces, at heights `0` and
`0.3` (for example a floor and a low shelf above it). -/
noncomputable def twoFloors : Geometry := surfs [Surface.py 0, Surface.py 0.3]

/-- A player whose feet ended up `0.4` below the floor plane at height `0`
(for example after tunnelling), at rest. -/
noncomputable def sunkPlayer : Player :=
  { initialPlayer with position := ⟨0, -0.4, 0⟩ }

/-- Scenario geometry: two parallel walls `x = 0.2` and `x = -0.2`,
a corridor narrower than twice the collision radius. -/
noncomputable def corridorGeom : Geometry := surfs [Surface.px 0.2, Surface.px (-0.2)]

/-- Scenario geometry: an opaque wall at `z = 1.5`, half the configured
camera distance behind a character at the origin facing yaw `0`. -/
noncomputable def wallGeom : Geometry := surfs [Surface.pz 1.5]

/-- A player fallen below the hard floor threshold, airborne and at rest. -/
noncomputable def fallPlayer : Player :=
  { initialPlayer with position := ⟨0, -11, 0⟩, isGrounded := false }

/-! ## Basic lemmas about the embedding -/

@[simp] theorem Vec3.add_def (a b : Vec3) :
    a + b = ⟨a.x + b.x, a.y + b.y, a.z + b.z⟩ := rfl

@[simp] theorem Vec3.sub_def (a b : Vec3) :
    a - b = ⟨a.x - b.x, a.y - b.y, a.z - b.z⟩ := rfl

@[simp] theorem Vec3.smul_def (c : ℝ) (a : Vec3) :
    c • a = ⟨c * a.x, c * a.y, c * a.z⟩ := rfl

@[simp] theorem Vec3.zero_def : (0 : Vec3) = ⟨0, 0, 0⟩ := rfl

/-- A probe along a direction with zero vertical component never changes
the `y` coordinate. -/
theorem probe_y_eq (g : Geometry) (q dir : Vec3) (hd : dir.y = 0) :
    (probe g q dir).y = q.y := by
  unfold probe
  cases hc : castRay g ⟨q.x, q.y + 0.5, q.z⟩ dir 0.3 with
  | none => rfl
  | some h => simp [hd]

/-- C10: the collision resolver never changes the vertical coordinate:
all four probe directions are horizontal, so every pushback is horizontal
and the corrected position has exactly the tentative position's `y`. -/
theorem checkCollision_preserves_y (g : Geometry) (p : Vec3) :
    (checkCollision g p).y = p.y := by
  simp only [checkCollision, probeDirs, List.foldl_cons, List.foldl_nil]
  rw [probe_y_eq _ _ _ rfl, probe_y_eq _ _ _ rfl, probe_y_eq _ _ _ rfl,
      probe_y_eq _ _ _ rfl]

/-- One mousemove lands the pitch inside `[-π/3, π/3]`. -/
theorem mouseMove_pitch_mem (dx dy : ℝ) (p : Player) :
    (mouseMove dx dy p).pitch ∈ Set.Icc (-(Real.pi / 3)) (Real.pi / 3) := by
  have hpi : 0 ≤ Real.pi / 3 := by positivity
  rw [Set.mem_Icc]
  constructor
  · exact le_max_left _ _
  · exact max_le (by linarith) (min_le_left _ _)

/-- C3: for any sequence of look events applied through the mousemove
handler, starting from the initial pitch `0`, the pitch lies in
`[-π/3, π/3]` after every update (stated for all event sequences, hence
for every prefix of a given sequence). -/
theorem pitch_always_clamped (evs : List (ℝ × ℝ)) :
    (evs.foldl (fun p e => mouseMove e.1 e.2 p) initialPlayer).pitch ∈
      Set.Icc (-(Real.pi / 3)) (Real.pi / 3) := by
  have key : ∀ (l : List (ℝ × ℝ)) (p : Player),
      p.pitch ∈ Set.Icc (-(Real.pi / 3)) (Real.pi / 3) →
      (l.foldl (fun p e => mouseMove e.1 e.2 p) p).pitch ∈
        Set.Icc (-(Real.pi / 3)) (Real.pi / 3) := by
    intro l
    induction l with
    | nil => intro p hp; exact hp
    | cons e t ih => intro p _; exact ih _ (mouseMove_pitch_mem e.1 e.2 p)
  apply key
  have h := Real.pi_pos
  simp only [initialPlayer, Set.mem_Icc]
  constructor <;> linarith

/-! ## Movement: zero-direction guard and damping -/

/-- With no keys held, the movement direction is the zero vector. -/
theorem buildDirection_noKeys : buildDirection noKeys = 0 := by
  simp [buildDirection, noKeys]

/-- When the direction vector is zero (all keys up, or opposing keys
cancelling), the movement stage takes the deceleration branch: `isMoving`
becomes false and the horizontal velocity is damped by `0.9`; the
normalization of the zero vector is never evaluated. -/
theorem applyMovement_of_zero_dir (k : Keys) (p : Player)
    (h0 : buildDirection k = 0) :
    applyMovement k p =
      { p with isMoving := false,
               velocity := ⟨p.velocity.x * 0.9, p.velocity.y, p.velocity.z * 0.9⟩ } := by
  rw [applyMovement, h0]
  rw [if_neg]
  simp [Vec3.lengthSq]

/-- C9: with all four directional inputs unset, or with opposing pairs
cancelling, the direction vector is zero and the movement stage never
normalizes it (no division by zero): it sets `isMoving` to false and
takes the deceleration branch, a no-op for direction handling. -/
theorem zero_direction_no_normalize (k : Keys) (p : Player) :
    buildDirection noKeys = 0 ∧
    ((k.forward = k.backward ∧ k.left = k.right) → buildDirection k = 0) ∧
    (buildDirection k = 0 →
      applyMovement k p =
        { p with isMoving := false,
                 velocity := ⟨p.velocity.x * 0.9, p.velocity.y, p.velocity.z * 0.9⟩ }) := by
  refine ⟨buildDirection_noKeys, ?_, applyMovement_of_zero_dir k p⟩
  rintro ⟨h1, h2⟩
  cases hb : k.backward <;> cases hr : k.right <;>
    simp [buildDirection, h1, h2, hb, hr]

/-- Witness for C9: all four directional keys held (both pairs cancel)
gives the zero direction vector and the deceleration branch. -/
theorem zero_direction_no_normalize_witness :
    buildDirection ⟨true, true, true, true, false⟩ = 0 ∧
    applyMovement ⟨true, true, true, true, false⟩ initialPlayer =
      { initialPlayer with
          isMoving := false,
          velocity := ⟨initialPlayer.velocity.x * 0.9, initialPlayer.velocity.y,
                       initialPlayer.velocity.z * 0.9⟩ } := by
  have h := zero_direction_no_normalize ⟨true, true, true, true, false⟩ initialPlayer
  have h0 : buildDirection ⟨true, true, true, true, false⟩ = 0 := h.2.1 ⟨rfl, rfl⟩
  exact ⟨h0, h.2.2 h0⟩

/-- One deceleration step scales the horizontal speed by exactly `0.9`. -/
theorem hSpeed_decelStep (p : Player) : hSpeed (decelStep p) = 0.9 * hSpeed p := by
  rw [decelStep, applyMovement_of_zero_dir noKeys p buildDirection_noKeys]
  unfold hSpeed
  have he : (p.velocity.x * 0.9) * (p.velocity.x * 0.9) +
      (p.velocity.z * 0.9) * (p.velocity.z * 0.9) =
      (0.9 : ℝ) ^ 2 * (p.velocity.x * p.velocity.x + p.velocity.z * p.velocity.z) := by
    ring
  rw [he, Real.sqrt_mul (by positivity), Real.sqrt_sq (by norm_num : (0:ℝ) ≤ 0.9)]

/-- After `n` deceleration steps the horizontal speed is `0.9 ^ n` times
the initial one. -/
theorem hSpeed_decelStep_iterate (p : Player) (n : ℕ) :
    hSpeed (decelStep^[n] p) = 0.9 ^ n * hSpeed p := by
  induction n with
  | zero => simp
  | succ n ih => rw [Function.iterate_succ_apply', hSpeed_decelStep, ih]; ring

/-- C7: for every initial state and every positive ε, iterating the
no-input deceleration step brings the horizontal speed below ε after a
bounded number of steps, and the speed is non-increasing at every step. -/
theorem damping_convergence (p : Player) (eps : ℝ) (heps : 0 < eps) :
    (∃ N : ℕ, ∀ n : ℕ, N ≤ n → hSpeed (decelStep^[n] p) < eps) ∧
    (∀ n : ℕ, hSpeed (decelStep^[n + 1] p) ≤ hSpeed (decelStep^[n] p)) := by
  have hs0 : 0 ≤ hSpeed p := Real.sqrt_nonneg _
  constructor
  · have hd : 0 < eps / (hSpeed p + 1) := by positivity
    obtain ⟨N, hN⟩ := exists_pow_lt_of_lt_one hd (by norm_num : (0.9 : ℝ) < 1)
    refine ⟨N, fun n hn => ?_⟩
    rw [hSpeed_decelStep_iterate]
    have h1 : (0.9 : ℝ) ^ n ≤ 0.9 ^ N :=
      pow_le_pow_of_le_one (by norm_num) (by norm_num) hn
    have h2 : (0.9 : ℝ) ^ N * (hSpeed p + 1) < eps := by
      rw [div_eq_inv_mul] at hN
      have hp1 : (0 : ℝ) < hSpeed p + 1 := by linarith
      calc (0.9 : ℝ) ^ N * (hSpeed p + 1)
          < (hSpeed p + 1)⁻¹ * eps * (hSpeed p + 1) := by
            exact mul_lt_mul_of_pos_right hN hp1
        _ = eps := by field_simp
    have h3 : (0.9 : ℝ) ^ n * hSpeed p ≤ 0.9 ^ N * hSpeed p :=
      mul_le_mul_of_nonneg_right h1 hs0
    have h4 : (0.9 : ℝ) ^ N * hSpeed p ≤ 0.9 ^ N * (hSpeed p + 1) := by
      have := pow_nonneg (by norm_num : (0:ℝ) ≤ 0.9) N
      nlinarith
    linarith
  · intro n
    rw [hSpeed_decelStep_iterate, hSpeed_decelStep_iterate]
    have h1 : (0.9 : ℝ) ^ (n + 1) ≤ 0.9 ^ n :=
      pow_le_pow_of_le_one (by norm_num) (by norm_num) (Nat.le_succ n)
    nlinarith

/-- Witness for C7: a player sliding at speed 5 drops below ε = 1 after a
bounded number of no-input steps, never speeding up. -/
theorem damping_convergence_witness :
    (0 : ℝ) < 1 ∧
    ((∃ N : ℕ, ∀ n : ℕ, N ≤ n →
        hSpeed (decelStep^[n] { initialPlayer with velocity := ⟨3, 0, 4⟩ }) < 1) ∧
     (∀ n : ℕ,
        hSpeed (decelStep^[n + 1] { initialPlayer with velocity := ⟨3, 0, 4⟩ }) ≤
          hSpeed (decelStep^[n] { initialPlayer with velocity := ⟨3, 0, 4⟩ }))) :=
  ⟨by norm_num,
   damping_convergence { initialPlayer with velocity := ⟨3, 0, 4⟩ } 1 (by norm_num)⟩

/-! ## Safety net and jump -/

/-- The safety net never changes the grounded flag. -/
theorem safetyNet_isGrounded (p : Player) :
    (safetyNet p).isGrounded = p.isGrounded := by
  rw [safetyNet]; split <;> rfl

/-- The movement stage never changes the grounded flag. -/
theorem applyMovement_isGrounded (k : Keys) (p : Player) :
    (applyMovement k p).isGrounded = p.isGrounded := by
  simp only [applyMovement]; split <;> rfl

/-- The ground check never reports grounded while the vertical velocity is
positive (the single frame after a jump impulse stays airborne). -/
theorem checkGround_isGrounded_of_pos (g : Geometry) (q : Player)
    (h : 0 < q.velocity.y) : (checkGround g q).isGrounded = false := by
  rw [checkGround]
  cases hc : castRay g ⟨q.position.x, q.position.y + 0.5, q.position.z⟩ ⟨0, -1, 0⟩ 1.0 with
  | none => rfl
  | some hh =>
    have hcond : ¬(q.position.y - hh.point.y ≤ 0.15 ∧ q.velocity.y ≤ 0) := by
      rintro ⟨-, hle⟩; linarith
    dsimp only
    rw [if_neg hcond, if_pos h]

/-- C4: the update step applies the hard-floor safety net to the state it
reached after the ground check: if that state's vertical position is below
`-10` the step ends at the safe spawn `(0,5,0)` with zero velocity, and if
it is at or above `-10` no reset occurs. -/
theorem fall_safety_net (g : Geometry) (k : Keys) (p : Player) (delta : ℝ) :
    ((preSafety g k p delta).2.position.y < -10 →
       (updatePlayer g k p delta).2 =
         { (preSafety g k p delta).2 with
             position := ⟨0, 5, 0⟩, velocity := ⟨0, 0, 0⟩ }) ∧
    (-10 ≤ (preSafety g k p delta).2.position.y →
       (updatePlayer g k p delta).2 = (preSafety g k p delta).2) := by
  have e : (updatePlayer g k p delta).2 = safetyNet (preSafety g k p delta).2 := rfl
  constructor
  · intro h; rw [e, safetyNet, if_pos h]
  · intro h; rw [e, safetyNet, if_neg (not_lt.mpr h)]

/-- Witness for C4: with no geometry, a player at `y = -11` ends the step
reset to `(0,5,0)` with zero velocity, while the initial player (ending
the step at `y = 0`) is not reset. -/
theorem fall_safety_net_witness :
    ((preSafety emptyGeom noKeys fallPlayer 0.1).2.position.y < -10 ∧
     (updatePlayer emptyGeom noKeys fallPlayer 0.1).2 =
       { (preSafety emptyGeom noKeys fallPlayer 0.1).2 with
           position := ⟨0, 5, 0⟩, velocity := ⟨0, 0, 0⟩ }) ∧
    (-10 ≤ (preSafety emptyGeom noKeys initialPlayer 0.1).2.position.y ∧
     (updatePlayer emptyGeom noKeys initialPlayer 0.1).2 =
       (preSafety emptyGeom noKeys initialPlayer 0.1).2) := by
  have h1 : (preSafety emptyGeom noKeys fallPlayer 0.1).2.position.y < -10 := by
    norm_num [preSafety, applyMovement, buildDirection, noKeys, Vec3.lengthSq,
      applyJump, applyGravity, integrate, checkCollision, probeDirs, probe,
      castRay, emptyGeom, checkGround, fallPlayer, initialPlayer]
  have h2 : -10 ≤ (preSafety emptyGeom noKeys initialPlayer 0.1).2.position.y := by
    norm_num [preSafety, applyMovement, buildDirection, noKeys, Vec3.lengthSq,
      applyJump, applyGravity, integrate, checkCollision, probeDirs, probe,
      castRay, emptyGeom, checkGround, initialPlayer]
  exact ⟨⟨h1, (fall_safety_net emptyGeom noKeys fallPlayer 0.1).1 h1⟩,
         ⟨h2, (fall_safety_net emptyGeom noKeys initialPlayer 0.1).2 h2⟩⟩

/-- C2: in a step with the jump key down and the player grounded, the jump
stage sets the vertical velocity to the impulse `12`, clears the grounded
flag and consumes the jump key; the whole step ends airborne with the key
consumed (so a held key cannot produce a second impulse before the next
grounded-to-airborne transition).  While airborne the jump stage is the
identity: no impulse is ever applied in the air. -/
theorem jump_edge_trigger (g : Geometry) (k : Keys) (p : Player) (delta : ℝ)
    (h1 : 0 < delta) (h2 : delta ≤ 0.1) :
    (k.jump = true → p.isGrounded = true →
      (applyJump k (applyMovement k p)).2.velocity.y = 12 ∧
      (applyJump k (applyMovement k p)).2.isGrounded = false ∧
      (applyJump k (applyMovement k p)).1.jump = false ∧
      (updatePlayer g k p delta).1.jump = false ∧
      (updatePlayer g k p delta).2.isGrounded = false) ∧
    (p.isGrounded = false →
      applyJump k (applyMovement k p) = (k, applyMovement k p)) := by
  constructor
  · intro hj hg
    have hg1 : (applyMovement k p).isGrounded = true := by
      rw [applyMovement_isGrounded, hg]
    have hc : (k.jump && (applyMovement k p).isGrounded) = true := by
      rw [hj, hg1]; rfl
    have hJ : applyJump k (applyMovement k p) =
        ({ k with jump := false },
         { applyMovement k p with
             velocity := ⟨(applyMovement k p).velocity.x, 12,
                          (applyMovement k p).velocity.z⟩,
             isGrounded := false }) := by
      rw [applyJump, if_pos hc]
    refine ⟨by rw [hJ], by rw [hJ], by rw [hJ], ?_, ?_⟩
    · show (applyJump k (applyMovement k p)).1.jump = false
      rw [hJ]
    · have e2 : (updatePlayer g k p delta).2 =
          safetyNet (checkGround g
            { applyGravity (applyJump k (applyMovement k p)).2 delta with
                position := checkCollision g
                  (integrate (applyGravity (applyJump k (applyMovement k p)).2 delta)
                    delta) }) := rfl
      rw [e2, safetyNet_isGrounded]
      apply checkGround_isGrounded_of_pos
      show 0 < (applyGravity (applyJump k (applyMovement k p)).2 delta).velocity.y
      rw [hJ]
      rw [applyGravity, if_neg (by simp)]
      show (0:ℝ) < 12 - 40 * delta
      linarith
  · intro hng
    have hc : (k.jump && (applyMovement k p).isGrounded) = false := by
      rw [applyMovement_isGrounded, hng, Bool.and_false]
    rw [applyJump, hc]
    rfl

/-- Witness for C2: jump key held, grounded initial player, empty
geometry, `delta = 0.1`. -/
theorem jump_edge_trigger_witness :
    (0:ℝ) < 0.1 ∧ (0.1:ℝ) ≤ 0.1 ∧
    ((applyJump jumpKeys (applyMovement jumpKeys initialPlayer)).2.velocity.y = 12 ∧
     (applyJump jumpKeys (applyMovement jumpKeys initialPlayer)).2.isGrounded = false ∧
     (applyJump jumpKeys (applyMovement jumpKeys initialPlayer)).1.jump = false ∧
     (updatePlayer emptyGeom jumpKeys initialPlayer 0.1).1.jump = false ∧
     (updatePlayer emptyGeom jumpKeys initialPlayer 0.1).2.isGrounded = false) :=
  ⟨by norm_num, le_refl _,
   (jump_edge_trigger emptyGeom jumpKeys initialPlayer 0.1 (by norm_num)
      (le_refl _)).1 rfl rfl⟩

/-! ## Initial placement search -/

/-- C5: the placement search tries the downward rays from altitudes
`5, 2, 0, -5` in order and returns the first hit point raised by `0.1`;
if all four miss it casts one upward ray from `(0,-50,0)` with the same
offset on a hit; if that also misses it returns the world origin.  For a
single horizontal floor plane at height `0` the result is `(0, 0.1, 0)`. -/
theorem spawn_search (g : Geometry) :
    (∀ h, g ⟨0, 5, 0⟩ ⟨0, -1, 0⟩ = some h →
        findStartPosition g = ⟨h.point.x, h.point.y + 0.1, h.point.z⟩) ∧
    (g ⟨0, 5, 0⟩ ⟨0, -1, 0⟩ = none →
      ∀ h, g ⟨0, 2, 0⟩ ⟨0, -1, 0⟩ = some h →
        findStartPosition g = ⟨h.point.x, h.point.y + 0.1, h.point.z⟩) ∧
    (g ⟨0, 5, 0⟩ ⟨0, -1, 0⟩ = none → g ⟨0, 2, 0⟩ ⟨0, -1, 0⟩ = none →
      ∀ h, g ⟨0, 0, 0⟩ ⟨0, -1, 0⟩ = some h →
        findStartPosition g = ⟨h.point.x, h.point.y + 0.1, h.point.z⟩) ∧
    (g ⟨0, 5, 0⟩ ⟨0, -1, 0⟩ = none → g ⟨0, 2, 0⟩ ⟨0, -1, 0⟩ = none →
      g ⟨0, 0, 0⟩ ⟨0, -1, 0⟩ = none →
      ∀ h, g ⟨0, -5, 0⟩ ⟨0, -1, 0⟩ = some h →
        findStartPosition g = ⟨h.point.x, h.point.y + 0.1, h.point.z⟩) ∧
    (g ⟨0, 5, 0⟩ ⟨0, -1, 0⟩ = none → g ⟨0, 2, 0⟩ ⟨0, -1, 0⟩ = none →
      g ⟨0, 0, 0⟩ ⟨0, -1, 0⟩ = none → g ⟨0, -5, 0⟩ ⟨0, -1, 0⟩ = none →
      ∀ h, g ⟨0, -50, 0⟩ ⟨0, 1, 0⟩ = some h →
        findStartPosition g = ⟨h.point.x, h.point.y + 0.1, h.point.z⟩) ∧
    (g ⟨0, 5, 0⟩ ⟨0, -1, 0⟩ = none → g ⟨0, 2, 0⟩ ⟨0, -1, 0⟩ = none →
      g ⟨0, 0, 0⟩ ⟨0, -1, 0⟩ = none → g ⟨0, -5, 0⟩ ⟨0, -1, 0⟩ = none →
      g ⟨0, -50, 0⟩ ⟨0, 1, 0⟩ = none → findStartPosition g = ⟨0, 0, 0⟩) ∧
    findStartPosition floorGeom = ⟨0, 0.1, 0⟩ := by
  refine ⟨?_, ?_, ?_, ?_, ?_, ?_, ?_⟩
  · intro h e1; simp only [findStartPosition, e1]
  · intro e1 h e2; simp only [findStartPosition, e1, e2]
  · intro e1 e2 h e3; simp only [findStartPosition, e1, e2, e3]
  · intro e1 e2 e3 h e4; simp only [findStartPosition, e1, e2, e3, e4]
  · intro e1 e2 e3 e4 h e5; simp only [findStartPosition, e1, e2, e3, e4, e5]
  · intro e1 e2 e3 e4 e5; simp only [findStartPosition, e1, e2, e3, e4, e5]
  · norm_num [findStartPosition, floorGeom, surfs, nearestHit, nearer,
      Surface.rayHit]

/-- Witness for C5: the single-floor scenario geometry hits the first
downward ray at `(0,0,0)` with distance `5`, and the search lands at
`(0, 0.1, 0)`. -/
theorem spawn_search_witness :
    floorGeom ⟨0, 5, 0⟩ ⟨0, -1, 0⟩ = some ⟨⟨0, 0, 0⟩, 5⟩ ∧
    findStartPosition floorGeom = ⟨0, 0.1, 0⟩ := by
  have he : floorGeom ⟨0, 5, 0⟩ ⟨0, -1, 0⟩ = some ⟨⟨0, 0, 0⟩, 5⟩ := by
    norm_num [floorGeom, surfs, nearestHit, nearer, Surface.rayHit]
  have hr := (spawn_search floorGeom).1 ⟨⟨0, 0, 0⟩, 5⟩ he
  exact ⟨he, by rw [hr]; norm_num⟩

/-! ## Ground check: raycast characterization over plane geometries -/

theorem nearer_none (b : Option Hit) : nearer none b = b := by cases b <;> rfl

theorem nearer_some_none (h : Hit) : nearer (some h) none = some h := rfl

theorem nearer_some_some (h₁ h₂ : Hit) :
    nearer (some h₁) (some h₂) =
      if h₁.dist ≤ h₂.dist then some h₁ else some h₂ := rfl

theorem nearestHit_cons (s : Surface) (t : List Surface) (o d : Vec3) :
    nearestHit (s :: t) o d = nearer (s.rayHit o d) (nearestHit t o d) := rfl

/-- A bounded cast that returns a hit: the oracle returned that hit and it
is within the bound. -/
theorem castRay_some (g : Geometry) (o d : Vec3) (far : ℝ) (h : Hit)
    (hc : castRay g o d far = some h) : g o d = some h ∧ h.dist ≤ far := by
  rw [castRay] at hc
  cases hg : g o d with
  | none => rw [hg] at hc; cases hc
  | some h0 =>
    rw [hg] at hc
    dsimp only at hc
    by_cases hle : h0.dist ≤ far
    · rw [if_pos hle] at hc
      injection hc with he
      subst he
      exact ⟨rfl, hle⟩
    · rw [if_neg hle] at hc; cases hc

/-- Conversely, an oracle hit within the bound survives the bounded cast. -/
theorem castRay_of (g : Geometry) (o d : Vec3) (far : ℝ) (h : Hit)
    (h1 : g o d = some h) (h2 : h.dist ≤ far) : castRay g o d far = some h := by
  rw [castRay, h1]
  dsimp only
  rw [if_pos h2]

/-- A vertical plane is parallel to the downward ray: no hit. -/
theorem rayHit_down_px (a : ℝ) (o : Vec3) :
    (Surface.px a).rayHit o ⟨0, -1, 0⟩ = none := by
  simp [Surface.rayHit]

/-- A vertical plane is parallel to the downward ray: no hit. -/
theorem rayHit_down_pz (a : ℝ) (o : Vec3) :
    (Surface.pz a).rayHit o ⟨0, -1, 0⟩ = none := by
  simp [Surface.rayHit]

/-- A downward ray hits the horizontal plane `y = a` exactly when the
plane is strictly below the origin, at distance `o.y - a`. -/
theorem rayHit_down_py (a : ℝ) (o : Vec3) :
    (Surface.py a).rayHit o ⟨0, -1, 0⟩ =
      if 0 < o.y - a then some ⟨⟨o.x, a, o.z⟩, o.y - a⟩ else none := by
  simp only [Surface.rayHit]
  rw [if_neg (by norm_num : ¬((⟨0, -1, 0⟩ : Vec3).y = 0))]
  have h2 : (a - o.y) / (⟨0, -1, 0⟩ : Vec3).y = o.y - a := by
    show (a - o.y) / (-1 : ℝ) = o.y - a
    ring
  rw [h2]
  split
  · simp only [Vec3.smul_def, Vec3.add_def, Option.some.injEq, Hit.mk.injEq,
      Vec3.mk.injEq]
    norm_num
  · rfl

/-- Every hit a downward ray gets from a plane list comes from a
horizontal plane strictly below the origin, with the matching point and
distance. -/
theorem nearestHit_down_sound (S : List Surface) (o : Vec3) (h : Hit)
    (he : nearestHit S o ⟨0, -1, 0⟩ = some h) :
    ∃ a, Surface.py a ∈ S ∧ h = ⟨⟨o.x, a, o.z⟩, o.y - a⟩ ∧ 0 < o.y - a := by
  induction S with
  | nil => exact absurd he (by simp [nearestHit])
  | cons s t ih =>
    rw [nearestHit_cons] at he
    cases s with
    | px a =>
      rw [rayHit_down_px, nearer_none] at he
      obtain ⟨b, hm, hh, hp⟩ := ih he
      exact ⟨b, List.mem_cons_of_mem _ hm, hh, hp⟩
    | pz a =>
      rw [rayHit_down_pz, nearer_none] at he
      obtain ⟨b, hm, hh, hp⟩ := ih he
      exact ⟨b, List.mem_cons_of_mem _ hm, hh, hp⟩
    | py a =>
      rw [rayHit_down_py] at he
      by_cases hpos : 0 < o.y - a
      · rw [if_pos hpos] at he
        cases ht : nearestHit t o ⟨0, -1, 0⟩ with
        | none =>
          rw [ht, nearer_some_none] at he
          injection he with he2
          exact ⟨a, List.mem_cons_self _ _, he2.symm, hpos⟩
        | some h2 =>
          rw [ht, nearer_some_some] at he
          by_cases hle : (⟨⟨o.x, a, o.z⟩, o.y - a⟩ : Hit).dist ≤ h2.dist
          · rw [if_pos hle] at he
            injection he with he2
            exact ⟨a, List.mem_cons_self _ _, he2.symm, hpos⟩
          · rw [if_neg hle] at he
            injection he with he2
            subst he2
            obtain ⟨b, hm, hh, hp⟩ := ih ht
            exact ⟨b, List.mem_cons_of_mem _ hm, hh, hp⟩
      · rw [if_neg hpos, nearer_none] at he
        obtain ⟨b, hm, hh, hp⟩ := ih he
        exact ⟨b, List.mem_cons_of_mem _ hm, hh, hp⟩

/-- If some horizontal plane of the list lies strictly below the origin,
the downward ray hits, and the nearest hit is at most that plane's
distance. -/
theorem nearestHit_down_min (S : List Surface) (o : Vec3) (a : ℝ)
    (ha : Surface.py a ∈ S) (hpos : 0 < o.y - a) :
    ∃ h, nearestHit S o ⟨0, -1, 0⟩ = some h ∧ h.dist ≤ o.y - a := by
  induction S with
  | nil => exact absurd ha (List.not_mem_nil _)
  | cons s t ih =>
    rw [nearestHit_cons]
    rcases List.mem_cons.mp ha with heq | hmem
    · subst heq
      rw [rayHit_down_py, if_pos hpos]
      cases ht : nearestHit t o ⟨0, -1, 0⟩ with
      | none =>
        refine ⟨⟨⟨o.x, a, o.z⟩, o.y - a⟩, ?_, le_refl _⟩
        rw [nearer_some_none]
      | some h2 =>
        rw [nearer_some_some]
        by_cases hle : (⟨⟨o.x, a, o.z⟩, o.y - a⟩ : Hit).dist ≤ h2.dist
        · exact ⟨_, by rw [if_pos hle], le_refl _⟩
        · exact ⟨h2, by rw [if_neg hle], le_of_lt (not_le.mp hle)⟩
    · obtain ⟨h2, ht, hd⟩ := ih hmem
      cases hs : s.rayHit o ⟨0, -1, 0⟩ with
      | none => exact ⟨h2, by rw [nearer_none, ht], hd⟩
      | some h1 =>
        rw [ht, nearer_some_some]
        by_cases hle : h1.dist ≤ h2.dist
        · exact ⟨h1, by rw [if_pos hle], le_trans hle hd⟩
        · exact ⟨h2, by rw [if_neg hle], hd⟩

/-! ## Ground check: case behaviour and idempotence -/

/-- Snap case of `checkGround`: a hit within tolerance while not moving
upward snaps the player onto the surface. -/
theorem checkGround_snap (g : Geometry) (p : Player) (h : Hit)
    (hc : castRay g ⟨p.position.x, p.position.y + 0.5, p.position.z⟩
            ⟨0, -1, 0⟩ 1.0 = some h)
    (h1 : p.position.y - h.point.y ≤ 0.15) (h2 : p.velocity.y ≤ 0) :
    checkGround g p =
      { p with
        position := ⟨p.position.x, h.point.y + 0.01, p.position.z⟩,
        velocity := ⟨p.velocity.x, 0, p.velocity.z⟩,
        isGrounded := true } := by
  rw [checkGround, hc]
  dsimp only
  rw [if_pos ⟨h1, h2⟩]

/-- Upward-moving case of `checkGround`: whatever the ray reports, the
player is marked airborne and otherwise untouched. -/
theorem checkGround_of_pos_velocity (g : Geometry) (p : Player)
    (hv : 0 < p.velocity.y) :
    checkGround g p = { p with isGrounded := false } := by
  rw [checkGround]
  cases hc : castRay g ⟨p.position.x, p.position.y + 0.5, p.position.z⟩
      ⟨0, -1, 0⟩ 1.0 with
  | none => rfl
  | some h =>
    dsimp only
    rw [if_neg (by rintro ⟨-, hle⟩; linarith), if_pos hv]

/-- Missed-ray case of `checkGround`: the player is marked airborne and
otherwise untouched. -/
theorem checkGround_none (g : Geometry) (p : Player)
    (hc : castRay g ⟨p.position.x, p.position.y + 0.5, p.position.z⟩
            ⟨0, -1, 0⟩ 1.0 = none) :
    checkGround g p = { p with isGrounded := false } := by
  rw [checkGround, hc]

/-- Out-of-tolerance case of `checkGround`: a hit beyond the snap
tolerance with non-positive vertical velocity leaves the player unchanged. -/
theorem checkGround_out_of_tolerance (g : Geometry) (p : Player) (h : Hit)
    (hc : castRay g ⟨p.position.x, p.position.y + 0.5, p.position.z⟩
            ⟨0, -1, 0⟩ 1.0 = some h)
    (h1 : ¬(p.position.y - h.point.y ≤ 0.15)) (h2 : ¬(0 < p.velocity.y)) :
    checkGround g p = p := by
  rw [checkGround, hc]
  dsimp only
  rw [if_neg (by rintro ⟨hle, -⟩; exact h1 hle), if_neg h2]

/-- C6 counterexample: over the two-floor geometry (floors at `0` and
`0.3`), a player at rest with feet at `y = -0.4` snaps to `y = 0.01` on
the first ground check, but the second check re-snaps to the shelf at
`y = 0.31`: the vertical position is not idempotent. -/
theorem ground_check_not_idempotent :
    (checkGround twoFloors (checkGround twoFloors sunkPlayer)).position.y ≠
      (checkGround twoFloors sunkPlayer).position.y := by
  have h1 : checkGround twoFloors sunkPlayer =
      { sunkPlayer with
        position := ⟨0, (0 : ℝ) + 0.01, 0⟩,
        velocity := ⟨0, 0, 0⟩,
        isGrounded := true } := by
    have hc : castRay twoFloors
        ⟨sunkPlayer.position.x, sunkPlayer.position.y + 0.5, sunkPlayer.position.z⟩
        ⟨0, -1, 0⟩ 1.0 = some ⟨⟨0, 0, 0⟩, (0.1 : ℝ)⟩ := by
      norm_num [castRay, twoFloors, surfs, nearestHit, nearestHit_cons, nearer,
        Surface.rayHit, sunkPlayer, initialPlayer]
    have := checkGround_snap twoFloors sunkPlayer ⟨⟨0, 0, 0⟩, (0.1 : ℝ)⟩ hc
      (by norm_num [sunkPlayer, initialPlayer]) (by norm_num [sunkPlayer, initialPlayer])
    rw [this]
    norm_num [sunkPlayer, initialPlayer]
  rw [h1]
  have h2 : checkGround twoFloors
      ({ sunkPlayer with
         position := ⟨0, (0 : ℝ) + 0.01, 0⟩,
         velocity := ⟨0, 0, 0⟩,
         isGrounded := true }) =
      { sunkPlayer with
        position := ⟨0, (0.3 : ℝ) + 0.01, 0⟩,
        velocity := ⟨0, 0, 0⟩,
        isGrounded := true } := by
    have hc : castRay twoFloors ⟨(0 : ℝ), (0 : ℝ) + 0.01 + 0.5, (0 : ℝ)⟩
        ⟨0, -1, 0⟩ 1.0 = some ⟨⟨0, 0.3, 0⟩, (0.21 : ℝ)⟩ := by
      norm_num [castRay, twoFloors, surfs, nearestHit, nearestHit_cons, nearer,
        Surface.rayHit]
    have := checkGround_snap twoFloors
      ({ sunkPlayer with
         position := ⟨0, (0 : ℝ) + 0.01, 0⟩,
         velocity := ⟨0, 0, 0⟩,
         isGrounded := true }) ⟨⟨0, 0.3, 0⟩, (0.21 : ℝ)⟩ hc
      (by norm_num) (by norm_num)
    rw [this]
  rw [h2]
  norm_num

/-- C6 (amended): over any geometry made of axis-aligned planes, two
successive ground checks with no intervening movement agree on the
grounded flag and on the vertical velocity.  (The vertical position can
still move on the second check when the first snap raised the probe
origin past another surface, as `ground_check_not_idempotent` shows.) -/
theorem ground_check_idempotent_flag (S : List Surface) (p : Player) :
    (checkGround (surfs S) (checkGround (surfs S) p)).isGrounded =
      (checkGround (surfs S) p).isGrounded ∧
    (checkGround (surfs S) (checkGround (surfs S) p)).velocity.y =
      (checkGround (surfs S) p).velocity.y := by
  by_cases hv : 0 < p.velocity.y
  · have hq := checkGround_of_pos_velocity (surfs S) p hv
    have hq2 := checkGround_of_pos_velocity (surfs S) (checkGround (surfs S) p)
      (by rw [hq]; exact hv)
    rw [hq2, hq]
    exact ⟨rfl, rfl⟩
  · cases hc : castRay (surfs S)
        ⟨p.position.x, p.position.y + 0.5, p.position.z⟩ ⟨0, -1, 0⟩ 1.0 with
    | none =>
      have hq := checkGround_none (surfs S) p hc
      have hc2 : castRay (surfs S)
          ⟨(checkGround (surfs S) p).position.x,
           (checkGround (surfs S) p).position.y + 0.5,
           (checkGround (surfs S) p).position.z⟩ ⟨0, -1, 0⟩ 1.0 = none := by
        rw [hq]; exact hc
      have hq2 := checkGround_none (surfs S) _ hc2
      rw [hq2, hq]
      exact ⟨rfl, rfl⟩
    | some h =>
      by_cases hd : p.position.y - h.point.y ≤ 0.15
      · have hq := checkGround_snap (surfs S) p h hc hd (not_lt.mp hv)
        obtain ⟨hn, hfar⟩ := castRay_some _ _ _ _ _ hc
        obtain ⟨a, haS, hh, hpos⟩ := nearestHit_down_sound S _ h hn
        set q := checkGround (surfs S) p with hqdef
        have hqy : q.position.y = h.point.y + 0.01 := by rw [hq]
        have hay : h.point.y = a := by rw [hh]
        have hqvy : q.velocity.y = 0 := by rw [hq]
        obtain ⟨h2, hn2, hd2⟩ := nearestHit_down_min S
          ⟨q.position.x, q.position.y + 0.5, q.position.z⟩ a haS
          (by dsimp only; rw [hqy, hay]; linarith)
        have hd2a : h2.dist ≤ q.position.y + 0.5 - a := hd2
        obtain ⟨b, hbS, hh2, hpos2⟩ := nearestHit_down_sound S _ h2 hn2
        have hb2 : h2.point.y = b := by rw [hh2]
        have hdist2 : h2.dist = q.position.y + 0.5 - b := by rw [hh2]
        have hab : a ≤ b := by rw [hdist2] at hd2a; linarith
        have hc2 : castRay (surfs S)
            ⟨q.position.x, q.position.y + 0.5, q.position.z⟩
            ⟨0, -1, 0⟩ 1.0 = some h2 := by
          apply castRay_of _ _ _ _ _ hn2
          rw [hdist2, hqy, hay]
          linarith
        have hsnap2 := checkGround_snap (surfs S) q h2 hc2
          (by rw [hb2, hqy, hay]; linarith) (le_of_eq hqvy)
        rw [hsnap2, hq]
        exact ⟨rfl, rfl⟩
      · have hq := checkGround_out_of_tolerance (surfs S) p h hc hd hv
        simp [hq]

/-! ## Collision resolver -/

@[simp] theorem Vec3.zero_x : (0 : Vec3).x = 0 := rfl

@[simp] theorem Vec3.zero_y : (0 : Vec3).y = 0 := rfl

@[simp] theorem Vec3.zero_z : (0 : Vec3).z = 0 := rfl

/-- C1 counterexample: in the corridor of two walls (`x = 0.2` and
`x = -0.2`) around the tentative position `(0,0,0)`, the resolver's
sequential probing gives `x = 0.1` (the `-X` probe fires from the
already-shifted position `x = -0.1`, penetration `0.2`), while the
claim's additive-independent corrections from the tentative position
cancel to `x = 0`: the two disagree. -/
theorem collision_not_additive_independent :
    (checkCollision corridorGeom ⟨0, 0, 0⟩).x = 0.1 ∧
    (checkCollisionSpec corridorGeom ⟨0, 0, 0⟩).x = 0 ∧
    checkCollision corridorGeom ⟨0, 0, 0⟩ ≠ checkCollisionSpec corridorGeom ⟨0, 0, 0⟩ := by
  have h1 : (checkCollision corridorGeom ⟨0, 0, 0⟩).x = 0.1 := by
    norm_num [checkCollision, probeDirs, probe, castRay, corridorGeom, surfs,
      nearestHit, nearestHit_cons, nearer, Surface.rayHit]
  have h2 : (checkCollisionSpec corridorGeom ⟨0, 0, 0⟩).x = 0 := by
    norm_num [checkCollisionSpec, probeDirs, castRay, corridorGeom, surfs,
      nearestHit, nearestHit_cons, nearer, Surface.rayHit]
  refine ⟨h1, h2, fun he => ?_⟩
  rw [he, h2] at h1
  norm_num at h1

/-- C1 (amended): the resolver probes the four cardinal directions in the
order `+X, -X, +Z, -Z`, but sequentially: each successive ray is cast from
the position as corrected by the preceding probes (raised by half the
character height), and a probe that hits within the radius `0.3` pushes
the current position back along the opposite direction by
`0.3 - hitDistance`, the corrections accumulating. -/
theorem collision_probes_sequential (g : Geometry) (p : Vec3) :
    checkCollision g p =
      probe g (probe g (probe g (probe g p ⟨1, 0, 0⟩) ⟨-1, 0, 0⟩) ⟨0, 0, 1⟩)
        ⟨0, 0, -1⟩ ∧
    (∀ (q dir : Vec3) (h : Hit),
        castRay g ⟨q.x, q.y + 0.5, q.z⟩ dir 0.3 = some h →
        probe g q dir = q + (-(0.3 - h.dist)) • dir) ∧
    (∀ q dir : Vec3,
        castRay g ⟨q.x, q.y + 0.5, q.z⟩ dir 0.3 = none → probe g q dir = q) := by
  refine ⟨rfl, ?_, ?_⟩
  · intro q dir h e
    rw [probe, e]
  · intro q dir e
    rw [probe, e]

/-- Witness for the amended C1: in the corridor geometry the `+X` probe
from the origin hits the wall `x = 0.2` at distance `0.2` and pushes the
position back by `0.1` along `-X`. -/
theorem collision_probes_sequential_witness :
    castRay corridorGeom ⟨(0 : ℝ), (0 : ℝ) + 0.5, (0 : ℝ)⟩ ⟨1, 0, 0⟩ 0.3 =
      some ⟨⟨0.2, 0.5, 0⟩, (0.2 : ℝ)⟩ ∧
    probe corridorGeom ⟨0, 0, 0⟩ ⟨1, 0, 0⟩ =
      (⟨0, 0, 0⟩ : Vec3) + (-(0.3 - (0.2 : ℝ))) • (⟨1, 0, 0⟩ : Vec3) := by
  have he : castRay corridorGeom ⟨(0 : ℝ), (0 : ℝ) + 0.5, (0 : ℝ)⟩ ⟨1, 0, 0⟩ 0.3 =
      some ⟨⟨0.2, 0.5, 0⟩, (0.2 : ℝ)⟩ := by
    norm_num [castRay, corridorGeom, surfs, nearestHit, nearestHit_cons, nearer,
      Surface.rayHit]
  exact ⟨he, (collision_probes_sequential corridorGeom ⟨0, 0, 0⟩).2.1
    ⟨0, 0, 0⟩ ⟨1, 0, 0⟩ ⟨⟨0.2, 0.5, 0⟩, (0.2 : ℝ)⟩ he⟩

/-! ## Camera rig -/

/-- C8: when the line-of-sight ray from the head toward the desired camera
position reports an obstruction, the camera is placed on that ray at the
hit distance minus the `0.2` buffer when that exceeds `0.5` (strictly
short of the obstruction), and exactly at the head otherwise; with no
obstruction it sits at the desired position. -/
theorem camera_occlusion (g : Geometry) (p : Player) :
    (∀ h : Hit, castRay g (camHead p) (camDir p) (camDist p) = some h →
       (0.5 < h.dist - 0.2 →
          (updateCamera g p).position = camHead p + (h.dist - 0.2) • camDir p ∧
          h.dist - 0.2 < h.dist) ∧
       (h.dist - 0.2 ≤ 0.5 → (updateCamera g p).position = camHead p)) ∧
    (castRay g (camHead p) (camDir p) (camDist p) = none →
       (updateCamera g p).position = camDesired p) := by
  constructor
  · intro h e
    constructor
    · intro hgt
      refine ⟨?_, by linarith⟩
      rw [updateCamera]
      dsimp only
      rw [e]
      dsimp only
      rw [if_pos hgt]
    · intro hle
      rw [updateCamera]
      dsimp only
      rw [e]
      dsimp only
      rw [if_neg (not_lt.mpr hle)]
  · intro e
    rw [updateCamera]
    dsimp only
    rw [e]


/-- Witness for C8: character at the origin facing yaw `0`, pitch `0`,
with the wall `z = 1.5` at half the camera distance behind it.  The
line-of-sight ray hits the wall at distance `√10 / 2`, the safe distance
exceeds `0.5`, and the camera lands strictly short of the wall. -/
theorem camera_occlusion_witness :
    castRay wallGeom (camHead initialPlayer) (camDir initialPlayer)
        (camDist initialPlayer) =
      some ⟨⟨0, 1.5, 1.5⟩, Real.sqrt 10 / 2⟩ ∧
    0.5 < Real.sqrt 10 / 2 - 0.2 ∧
    (updateCamera wallGeom initialPlayer).position =
      camHead initialPlayer +
        (Real.sqrt 10 / 2 - 0.2) • camDir initialPlayer ∧
    (updateCamera wallGeom initialPlayer).position.z < 1.5 := by
  have hs0 : (0 : ℝ) < Real.sqrt 10 := Real.sqrt_pos.mpr (by norm_num)
  have hs2 : Real.sqrt 10 ^ 2 = 10 := Real.sq_sqrt (by norm_num)
  have hsne : Real.sqrt 10 ≠ 0 := ne_of_gt hs0
  have hdesired : camDesired initialPlayer = ⟨0, 2, 3⟩ := by
    norm_num [camDesired, initialPlayer]
  have hhead : camHead initialPlayer = ⟨0, 1, 0⟩ := by
    norm_num [camHead, initialPlayer]
  have hsub : (⟨0, 2, 3⟩ : Vec3) - ⟨0, 1, 0⟩ = ⟨0, 1, 3⟩ := by norm_num
  have hlen : (⟨0, 1, 3⟩ : Vec3).length = Real.sqrt 10 := by
    rw [Vec3.length, Vec3.lengthSq]
    norm_num
  have hdir : camDir initialPlayer =
      ⟨0, 1 / Real.sqrt 10, 3 / Real.sqrt 10⟩ := by
    rw [camDir, hdesired, hhead, hsub, Vec3.normalize, hlen]
    simp only [Vec3.smul_def, Vec3.mk.injEq]
    refine ⟨by ring, by ring, by ring⟩
  have hdist : camDist initialPlayer = Real.sqrt 10 := by
    rw [camDist, Vec3.distanceTo, hdesired, hhead, hsub, hlen]
  have hy2 : Real.sqrt 10 / 2 * (1 / Real.sqrt 10) = 1 / 2 := by
    field_simp
    ring
  have hz2 : Real.sqrt 10 / 2 * (3 / Real.sqrt 10) = 3 / 2 := by
    field_simp
    ring
  have hray : (Surface.pz 1.5).rayHit ⟨0, 1, 0⟩
      ⟨0, 1 / Real.sqrt 10, 3 / Real.sqrt 10⟩ =
      some ⟨⟨0, 1.5, 1.5⟩, Real.sqrt 10 / 2⟩ := by
    simp only [Surface.rayHit]
    rw [if_neg (by positivity : ¬((3 : ℝ) / Real.sqrt 10 = 0))]
    have ht : ((1.5 : ℝ) - 0) / (3 / Real.sqrt 10) = Real.sqrt 10 / 2 := by
      rw [show ((1.5 : ℝ) - 0) = 3 / 2 by norm_num]
      field_simp
      ring
    rw [ht, if_pos (by positivity : (0 : ℝ) < Real.sqrt 10 / 2)]
    simp only [Vec3.smul_def, Vec3.add_def, Option.some.injEq, Hit.mk.injEq,
      Vec3.mk.injEq]
    refine ⟨⟨by ring, ?_, ?_⟩, trivial⟩
    · rw [hy2]; norm_num
    · rw [hz2]; norm_num
  have horacle : wallGeom (camHead initialPlayer) (camDir initialPlayer) =
      some ⟨⟨0, 1.5, 1.5⟩, Real.sqrt 10 / 2⟩ := by
    rw [hhead, hdir, wallGeom, surfs, nearestHit_cons, hray]
    rw [show nearestHit []
        (⟨0, 1, 0⟩ : Vec3) ⟨0, 1 / Real.sqrt 10, 3 / Real.sqrt 10⟩ = none from rfl]
    rw [nearer_some_none]
  have he : castRay wallGeom (camHead initialPlayer) (camDir initialPlayer)
      (camDist initialPlayer) =
      some ⟨⟨0, 1.5, 1.5⟩, Real.sqrt 10 / 2⟩ := by
    apply castRay_of _ _ _ _ _ horacle
    rw [hdist]
    dsimp only
    linarith
  have hgt : (0.5 : ℝ) <
      (⟨⟨0, 1.5, 1.5⟩, Real.sqrt 10 / 2⟩ : Hit).dist - 0.2 := by
    dsimp only
    nlinarith [hs0, hs2]
  have happ := (camera_occlusion wallGeom initialPlayer).1
    ⟨⟨0, 1.5, 1.5⟩, Real.sqrt 10 / 2⟩ he
  have hposition := (happ.1 hgt).1
  refine ⟨he, hgt, hposition, ?_⟩
  rw [hposition, hhead, hdir]
  simp only [Vec3.smul_def, Vec3.add_def]
  have hz3 : (0 : ℝ) + (Real.sqrt 10 / 2 - 0.2) * (3 / Real.sqrt 10) =
      1.5 - 0.6 / Real.sqrt 10 := by
    rw [show (0.2 : ℝ) = 1 / 5 by norm_num, show (1.5 : ℝ) = 3 / 2 by norm_num,
      show (0.6 : ℝ) = 3 / 5 by norm_num]
    field_simp
    ring
  rw [hz3]
  have hpos6 : (0 : ℝ) < 0.6 / Real.sqrt 10 := by positivity
  linarith
